import Mathlib

/-!
Verification development for the go3mf repository: a shallow embedding of the
resource graph, the spec registry, the materials validators, the extension
encoder, the streaming decoder loop and the mesh builder, with theorems
settling the specification claims against the code.
-/

namespace Go3MF

/-- RGBA color, embedding Go's `image/color.RGBA` (four bytes). The zero value
`⟨0,0,0,0⟩` is the "missing" color. -/
structure RGBA where
  r : Nat
  g : Nat
  b : Nat
  a : Nat
deriving DecidableEq

/-- A base material entry, embedding `go3mf.Base` (core.go): a name and a display color. -/
structure Base where
  Name : String
  Color : RGBA
deriving DecidableEq

/-- Embeds `go3mf.BaseMaterials`: an ID plus the ordered material list. -/
structure BaseMaterialsR where
  ID : Nat
  Materials : List Base
deriving DecidableEq

/-- Embeds `materials.ColorGroup`: an ID plus the ordered color list. -/
structure ColorGroupR where
  ID : Nat
  Colors : List RGBA
deriving DecidableEq

/-- Embeds `materials.Composite`: a list of mixing values. Only its presence and
count are inspected by the validators. -/
structure Composite where
  Values : List Int
deriving DecidableEq

/-- Embeds `materials.CompositeMaterials`: ID, referenced base-material ID,
material indices and composite entries. -/
structure CompositeMaterialsR where
  ID : Nat
  MaterialID : Nat
  Indices : List Nat
  Composites : List Composite
deriving DecidableEq

/-- Embeds `materials.Multi`: one combination entry holding per-slot property indices. -/
structure Multi where
  PIndices : List Nat
deriving DecidableEq

/-- Embeds `materials.MultiProperties`: ID, property-ID references, blend
methods (abstracted to numeric tags) and combination entries. -/
structure MultiPropertiesR where
  ID : Nat
  PIDs : List Nat
  BlendMethods : List Nat
  Multis : List Multi
deriving DecidableEq

/-- The polymorphic asset set stored in `Resources.Assets`. The Go code stores
assets behind the `Asset` interface; the kinds the validators switch on are the
four property groups below, and `unknownAsset` stands for every other
ID-carrying asset kind (textures, slice stacks, foreign assets, ...). -/
inductive Asset where
  | baseMaterials (r : BaseMaterialsR)
  | colorGroup (r : ColorGroupR)
  | compositeMaterials (r : CompositeMaterialsR)
  | multiProperties (r : MultiPropertiesR)
  | unknownAsset (id : Nat)
deriving DecidableEq

/-- Embeds the `Asset.Identify` interface method: every asset reports its numeric ID. -/
def Asset.identify : Asset → Nat
  | .baseMaterials r => r.ID
  | .colorGroup r => r.ID
  | .compositeMaterials r => r.ID
  | .multiProperties r => r.ID
  | .unknownAsset id => id

/-- Embeds `go3mf.Object` (core.go); only its ID is relevant to ID allocation
and reference resolution. -/
structure Object where
  ID : Nat
deriving DecidableEq

/-- Embeds `go3mf.Resources` (core.go): ordered assets and ordered objects. -/
structure Resources where
  Assets : List Asset
  Objects : List Object
deriving DecidableEq

/-- Embeds `go3mf.ChildModel` (core.go): the resources of a non-root document part. -/
structure ChildModel where
  resources : Resources
deriving DecidableEq

/-- Embeds `go3mf.Model` (core.go) restricted to the fields the claims touch:
root path, root resources and child models keyed by path (the Go map is
embedded as an association list). -/
structure Model where
  Path : String
  resources : Resources
  Childs : List (String × ChildModel)
deriving DecidableEq

/-- `DefaultModelPath` constant from core.go. -/
def DefaultModelPath : String := "/3D/3dmodel.model"

/-- Embeds `Model.FindResources` (core.go): the root resources answer for the
empty path, the model's own path, or the default path when the model path is
empty; otherwise the child map is consulted. -/
def findResources (m : Model) (path : String) : Option Resources :=
  if path = "" ∨ path = m.Path ∨ (m.Path = "" ∧ path = DefaultModelPath) then
    some m.resources
  else
    (m.Childs.find? (fun p => p.1 == path)).map (fun p => p.2.resources)

/-- Embeds `Resources.FindAsset` (core.go): linear scan for the matching ID. -/
def findAssetIn (rs : Resources) (id : Nat) : Option Asset :=
  rs.Assets.find? (fun a => a.identify == id)

/-- Embeds `Model.FindAsset` (core.go): resolve the document, then scan its assets. -/
def findAsset (m : Model) (path : String) (id : Nat) : Option Asset :=
  match findResources m path with
  | some rs => findAssetIn rs id
  | none => none

/-- Insert into a sorted list, ascending. Helper for `sortNat`. -/
def insertSorted (x : Nat) : List Nat → List Nat
  | [] => [x]
  | y :: l => if x ≤ y then x :: y :: l else y :: insertSorted x l

/-- Ascending sort of a list of naturals, embedding `sort.Ints` from
`Resources.UnusedID`: both produce the unique ascending permutation. -/
def sortNat : List Nat → List Nat
  | [] => []
  | x :: l => insertSorted x (sortNat l)

/-- The scan loop of `Resources.UnusedID` (core.go):
`lowest := 0; for i, id := range ids { if id != i { lowest = i } }`.
Note it does not stop at the first mismatch: `lowest` ends at the LAST index
whose sorted value differs from the index. -/
def lowestLoop : Nat → Nat → List Nat → Nat
  | _, acc, [] => acc
  | i, acc, id :: rest => lowestLoop (i + 1) (if id ≠ i then i else acc) rest

/-- Embeds `Resources.UnusedID` (core.go lines 411-435): empty resources give 1;
otherwise collect 0 followed by every asset and object ID, sort ascending, run
the scan loop, and fall back to max+1 when the loop never fired. -/
def unusedID (rs : Resources) : Nat :=
  if rs.Assets.length = 0 ∧ rs.Objects.length = 0 then 1
  else
    let ids : List Nat := 0 :: (rs.Assets.map Asset.identify ++ rs.Objects.map Object.ID)
    let sorted := sortNat ids
    let lowest := lowestLoop 0 0 sorted
    if lowest = 0 then sorted.getLastD 0 + 1 else lowest

/-- The first index whose sorted value differs from the index. Helper for
`unusedIDSpec`. -/
def firstGap : Nat → List Nat → Option Nat
  | _, [] => none
  | i, id :: rest => if id ≠ i then some i else firstGap (i + 1) rest

/-- Modelled from the spec (§3 Resources): `UnusedID` as the specification
states it — prepend 0 to the IDs in use, sort ascending, return the FIRST
index `i` where the sorted sequence's `i`-th value differs from `i`, or one
past the maximum when no gap exists. Stated only for comparison with the
source-derived `unusedID`. -/
def unusedIDSpec (rs : Resources) : Nat :=
  let ids : List Nat := 0 :: (rs.Assets.map Asset.identify ++ rs.Objects.map Object.ID)
  let sorted := sortNat ids
  match firstGap 0 sorted with
  | some i => i
  | none => sorted.getLastD 0 + 1

/-- True when the given ID is already used by an asset or an object of the
collection — the IDs `UnusedID` is supposed to avoid. -/
def idInUse (rs : Resources) (id : Nat) : Bool :=
  rs.Assets.any (fun a => a.identify == id) || rs.Objects.any (fun o => o.ID == id)

/-- The validation diagnostics of the errors package that the materials
validators emit. `wrapIndex` embeds `errors.WrapIndex(err, element, index)`,
which positions an inner error at an index within the parent collection. -/
inductive ModelError where
  | missingID
  | emptyResourceProps
  | missingField (name : String)
  | missingResource
  | indexOutOfBounds
  | multiBlend
  | materialMulti
  | multiRefMulti
  | multiColors
  | compositeBase
  | wrapIndex (inner : ModelError) (index : Nat)
deriving DecidableEq

/-- Attribute name `pids` (materials package constant). -/
def attrPIDs : String := "pids"

/-- Attribute name `matid` (materials package constant). -/
def attrMatID : String := "matid"

/-- Attribute name `matindices` (materials package constant). -/
def attrMatIndices : String := "matindices"

/-- Attribute name `color` (materials package constant). -/
def attrColor : String := "color"

/-- The blend-method cardinality test of `validateMultiProps`:
`len(r.BlendMethods) > len(r.PIDs)-1` over Go ints, so an empty PID list
makes the right side -1 and any count (including 0) exceeds it. -/
def blendExceeded (r : MultiPropertiesR) : Bool :=
  decide ((r.BlendMethods.length : Int) > (r.PIDs.length : Int) - 1)

/-- State threaded through the PID loop of `validateMultiProps`:
`colorCount`, the `resourceUndefined` once-only flag, the `lengths` array
(built up in loop order) and the errors appended so far. -/
structure MPState where
  colorCount : Nat
  resourceUndefined : Bool
  lengths : List Nat
  errs : List ModelError
deriving DecidableEq

/-- One iteration of the PID loop of `validateMultiProps` (validate.go):
switch on the resolved asset kind, record kind errors, extend `lengths`
(unhandled kinds and unresolved PIDs leave the Go zero value 0), and report
`ErrMissingResource` only on the first unresolved PID. -/
def mpStep (m : Model) (path : String) (s : MPState) (j : Nat) (pid : Nat) : MPState :=
  match findAsset m path pid with
  | some (.baseMaterials pr) =>
      { s with errs := s.errs ++ (if j ≠ 0 then [.materialMulti] else []),
               lengths := s.lengths ++ [pr.Materials.length] }
  | some (.compositeMaterials pr) =>
      { s with errs := s.errs ++ (if j ≠ 0 then [.materialMulti] else []),
               lengths := s.lengths ++ [pr.Composites.length] }
  | some (.multiProperties _) =>
      { s with errs := s.errs ++ [.multiRefMulti], lengths := s.lengths ++ [0] }
  | some (.colorGroup pr) =>
      { s with errs := s.errs ++ (if s.colorCount = 1 then [.multiColors] else []),
               colorCount := s.colorCount + 1,
               lengths := s.lengths ++ [pr.Colors.length] }
  | some (.unknownAsset _) =>
      { s with lengths := s.lengths ++ [0] }
  | none =>
      if s.resourceUndefined then
        { s with lengths := s.lengths ++ [0] }
      else
        { s with resourceUndefined := true,
                 errs := s.errs ++ [.missingResource],
                 lengths := s.lengths ++ [0] }

/-- The PID loop of `validateMultiProps`, iterating `mpStep` in order. -/
def mpLoop (m : Model) (path : String) : Nat → MPState → List Nat → MPState
  | _, s, [] => s
  | j, s, pid :: pids => mpLoop m path (j + 1) (mpStep m path s j pid) pids

/-- The inner slot loop of the combination check of `validateMultiProps`:
`k < len(r.PIDs) && lengths[k] < int(index)` for some slot `k` (the Go loop
breaks after the first hit, so one error per combination entry). -/
def flaggedAux (pidsLen : Nat) (lengths : List Nat) : Nat → List Nat → Bool
  | _, [] => false
  | k, idx :: rest =>
      (decide (k < pidsLen) && decide (lengths.getD k 0 < idx))
        || flaggedAux pidsLen lengths (k + 1) rest

/-- Whether a combination entry trips the out-of-bounds check of
`validateMultiProps`. -/
def multiFlagged (pidsLen : Nat) (lengths : List Nat) (mu : Multi) : Bool :=
  flaggedAux pidsLen lengths 0 mu.PIndices

/-- The combination loop of `validateMultiProps`: each flagged entry `j`
contributes one `ErrIndexOutOfBounds` wrapped at index `j`. -/
def multisErrs (pidsLen : Nat) (lengths : List Nat) : Nat → List Multi → List ModelError
  | _, [] => []
  | j, mu :: rest =>
      (if multiFlagged pidsLen lengths mu then [ModelError.wrapIndex .indexOutOfBounds j] else [])
        ++ multisErrs pidsLen lengths (j + 1) rest

/-- Embeds `validateMultiProps` (materials/validate.go): the four cardinality
checks, then the PID-resolution loop, then the combination out-of-bounds loop;
every check appends to one ordered error list and none aborts. -/
def validateMultiProps (m : Model) (path : String) (r : MultiPropertiesR) : List ModelError :=
  (if r.ID = 0 then [ModelError.missingID] else [])
    ++ (if r.PIDs.length = 0 then [ModelError.missingField attrPIDs] else [])
    ++ (if blendExceeded r then [ModelError.multiBlend] else [])
    ++ (if r.Multis.length = 0 then [ModelError.emptyResourceProps] else [])
    ++ (mpLoop m path 0 ⟨0, false, [], []⟩ r.PIDs).errs
    ++ multisErrs r.PIDs.length (mpLoop m path 0 ⟨0, false, [], []⟩ r.PIDs).lengths 0 r.Multis

/-- The material-reference check of `validateCompositeMat`: the material ID
must be present, resolve to an existing base-materials asset, and every index
must be within its material count (one out-of-bounds report for the whole
list, matching the Go break). -/
def compositeMatRefErrs (m : Model) (path : String) (r : CompositeMaterialsR) : List ModelError :=
  if r.MaterialID = 0 then [ModelError.missingField attrMatID]
  else match findAsset m path r.MaterialID with
    | some (.baseMaterials bm) =>
        if r.Indices.any (fun idx => bm.Materials.length < idx) then
          [ModelError.indexOutOfBounds]
        else []
    | some _ => [ModelError.compositeBase]
    | none => [ModelError.missingResource]

/-- Embeds `validateCompositeMat` (materials/validate.go): ID check, the
material reference check, then the two emptiness checks. -/
def validateCompositeMat (m : Model) (path : String) (r : CompositeMaterialsR) : List ModelError :=
  (if r.ID = 0 then [ModelError.missingID] else [])
    ++ compositeMatRefErrs m path r
    ++ (if r.Indices.length = 0 then [ModelError.missingField attrMatIndices] else [])
    ++ (if r.Composites.length = 0 then [ModelError.emptyResourceProps] else [])

/-- The length the PID loop records for one property-ID: the length of the
property list it resolves to (0 for unresolved PIDs and for kinds that carry
no list). -/
def pidRefLength (m : Model) (path : String) (pid : Nat) : Nat :=
  match findAsset m path pid with
  | some (.baseMaterials pr) => pr.Materials.length
  | some (.compositeMaterials pr) => pr.Composites.length
  | some (.colorGroup pr) => pr.Colors.length
  | some (.multiProperties _) => 0
  | some (.unknownAsset _) => 0
  | none => 0

/-- The lengths the PID loop computes, expressed directly. -/
def refLengths (m : Model) (path : String) (pids : List Nat) : List Nat :=
  pids.map (pidRefLength m path)

/-- Whether a PID resolves to a property list (base materials, composite
materials or a color group) — the premise of the combination-entry claim. -/
def resolvesToPropList (m : Model) (path : String) (pid : Nat) : Bool :=
  match findAsset m path pid with
  | some (.baseMaterials _) => true
  | some (.compositeMaterials _) => true
  | some (.colorGroup _) => true
  | _ => false

/-- Process-wide spec values: `nilSpec` models a nil `spec.Spec` interface
value, `someSpec` a non-nil implementation. -/
inductive SpecV where
  | nilSpec
  | someSpec (tag : Nat)
deriving DecidableEq

/-- Go map assignment `specs[namespace] = spec` on a registry embedded as an
association list: overwrite the existing entry or append a new one. -/
def mapAssign (reg : List (String × SpecV)) (ns : String) (s : SpecV) : List (String × SpecV) :=
  if reg.any (fun p => p.1 == ns) then
    reg.map (fun p => if p.1 == ns then (ns, s) else p)
  else reg ++ [(ns, s)]

/-- Embeds `Register` (register.go): take the lock, assign the map entry and
return. The body contains no duplicate-namespace check, no nil check and no
panic path (a panic would be an `Except.error` here), despite its own doc
comment promising one. -/
def Register (reg : List (String × SpecV)) (ns : String) (s : SpecV) :
    Except String (List (String × SpecV)) :=
  Except.ok (mapAssign reg ns s)

/-- A `Marshaler` value as the encoder sees it: the tokens its `Marshal3MF`
writes to the XML encoder, and the error it returns. -/
structure MarshalerV where
  out : List Nat
  err : Option String
deriving DecidableEq

/-- Embeds `Extension.encode` (extension.go lines 119-126) literally:
`for _, ext := range e { if err := ext.Marshal3MF(x); err == nil { return err } }`.
A successful marshaler's output is emitted and the loop RETURNS nil
immediately; a failing marshaler's error is discarded and the loop continues. -/
def extensionEncode : List MarshalerV → List Nat → List Nat × Option String
  | [], acc => (acc, none)
  | ext :: rest, acc =>
    match ext.err with
    | none => (acc ++ ext.out, none)
    | some _ => extensionEncode rest (acc ++ ext.out)

/-- Modelled from the spec (§4.3 Encoder, §8 Round-trip): the marshal loop the
round-trip guarantee requires — every marshaler in the list is emitted, and a
failing marshaler's error is the terminal error. Stated only for comparison
with the source-derived `extensionEncode`. -/
def extensionEncodeSpec : List MarshalerV → List Nat → List Nat × Option String
  | [], acc => (acc, none)
  | ext :: rest, acc =>
    match ext.err with
    | some e => (acc ++ ext.out, some e)
    | none => extensionEncodeSpec rest (acc ++ ext.out)

/-- An XML name: namespace and local part. -/
structure XmlName where
  space : String
  loc : String
deriving DecidableEq

/-- The XML token kinds the decode loop of `modelFile.Decode` switches on:
start element (with attributes), end element, character data. -/
inductive XmlToken where
  | start (name : XmlName) (attrs : List (XmlName × String))
  | endTag (name : XmlName)
  | charData (s : String)
deriving DecidableEq

/-- The mutable `modelFile` state the element decoders write through
`AddResource` and `AddWarning`: accumulated resources (abstracted to numeric
payloads) and accumulated warning diagnostics. -/
structure ModelFileState where
  resources : List Nat
  warnings : List String
deriving DecidableEq

/-- The `nodeDecoder` interface of the streaming decoder: the Open,
Attributes, Text and Close hooks (each may update the model-file state and
return an error) and the Child factory keyed by XML name. -/
inductive NodeDecoder where
  | mk (onOpen : ModelFileState → ModelFileState × Option String)
      (onAttributes : List (XmlName × String) → ModelFileState → ModelFileState × Option String)
      (onText : String → ModelFileState → ModelFileState × Option String)
      (onClose : ModelFileState → ModelFileState × Option String)
      (child : XmlName → Option NodeDecoder)

/-- The Child factory of a decoder. -/
def NodeDecoder.child : NodeDecoder → XmlName → Option NodeDecoder
  | .mk _ _ _ _ c => c

/-- The Open hook of a decoder. -/
def NodeDecoder.onOpen : NodeDecoder → ModelFileState → ModelFileState × Option String
  | .mk o _ _ _ _ => o

/-- The Attributes hook of a decoder. -/
def NodeDecoder.onAttributes :
    NodeDecoder → List (XmlName × String) → ModelFileState → ModelFileState × Option String
  | .mk _ a _ _ _ => a

/-- The Text hook of a decoder. -/
def NodeDecoder.onText : NodeDecoder → String → ModelFileState → ModelFileState × Option String
  | .mk _ _ t _ _ => t

/-- The Close hook of a decoder. -/
def NodeDecoder.onClose : NodeDecoder → ModelFileState → ModelFileState × Option String
  | .mk _ _ _ c _ => c

/-- Embeds `xml.Decoder.Skip` as called by the decode loop: consume tokens,
tracking element depth, until the end tag matching the already-consumed start
tag (depth 0) is passed; return the tokens after it. -/
def skipTokens : List XmlToken → Nat → List XmlToken
  | [], _ => []
  | .start _ _ :: rest, d => skipTokens rest (d + 1)
  | .endTag _ :: rest, d => if d = 0 then rest else skipTokens rest (d - 1)
  | .charData _ :: rest, d => skipTokens rest d

/-- Skipping never yields more tokens than were present (termination measure
for the decode loop). -/
def skipTokens_le : ∀ (l : List XmlToken) (d : Nat), (skipTokens l d).length ≤ l.length
  | [], _ => Nat.le_refl _
  | .start _ _ :: rest, d => Nat.le_succ_of_le (skipTokens_le rest (d + 1))
  | .endTag _ :: rest, d => by
      simp only [skipTokens]
      split
      · exact Nat.le_succ _
      · exact Nat.le_succ_of_le (skipTokens_le rest (d - 1))
  | .charData _ :: rest, d => Nat.le_succ_of_le (skipTokens_le rest d)

/-- Embeds the token loop of `modelFile.Decode` (read.go): an explicit decoder
stack with the parallel name stack. On a start tag the top decoder is asked
for a child decoder; if none is returned the element and its subtree are
skipped, otherwise the child is pushed and its Open and Attributes hooks run.
Character data goes to the Text hook. An end tag matching the current name
runs the Close hook and pops. Any hook error terminates the loop and is
returned; token exhaustion (io.EOF) returns the accumulated state with no
error. -/
def decodeLoop :
    List XmlToken → List (NodeDecoder × XmlName) → NodeDecoder → XmlName →
      ModelFileState → ModelFileState × Option String
  | [], _, _, _, st => (st, none)
  | .start name attrs :: rest, stack, cur, curName, st =>
    (match cur.child name with
      | some d =>
        (match d.onOpen st with
          | (st1, some e) => (st1, some e)
          | (st1, none) =>
            (match d.onAttributes attrs st1 with
              | (st2, some e) => (st2, some e)
              | (st2, none) => decodeLoop rest ((cur, curName) :: stack) d name st2))
      | none => decodeLoop (skipTokens rest 0) stack cur curName st)
  | .charData s :: rest, stack, cur, curName, st =>
    (match cur.onText s st with
      | (st1, some e) => (st1, some e)
      | (st1, none) => decodeLoop rest stack cur curName st)
  | .endTag name :: rest, stack, cur, curName, st =>
    if name = curName then
      (match cur.onClose st with
        | (st1, some e) => (st1, some e)
        | (st1, none) =>
          match stack with
          | [] => (st1, some "go3mf: decoder stack underflow")
          | (pd, pn) :: stack2 => decodeLoop rest stack2 pd pn st1)
    else decodeLoop rest stack cur curName st
termination_by tokens _ _ _ _ => tokens.length
decreasing_by
  all_goals simp only [List.length_cons]
  all_goals first
    | exact Nat.lt_succ_self _
    | exact Nat.lt_succ_of_le (skipTokens_le _ 0)

/-- Well-nested token sequences: the shape of the subtree content that follows
a start tag up to (but not including) its matching end tag. -/
inductive BalancedTokens : List XmlToken → Prop where
  | nil : BalancedTokens []
  | text (s : String) {l : List XmlToken} :
      BalancedTokens l → BalancedTokens (XmlToken.charData s :: l)
  | elem (n : XmlName) (attrs : List (XmlName × String)) (n2 : XmlName)
      {inner l : List XmlToken} :
      BalancedTokens inner → BalancedTokens l →
      BalancedTokens (XmlToken.start n attrs :: (inner ++ XmlToken.endTag n2 :: l))

/-- A 3D point, embedding `go3mf.Point3D` restricted to exactly representable
coordinates (the mesh-dedup claims only compare points for equality). -/
structure Point3D where
  x : Int
  y : Int
  z : Int
deriving DecidableEq

/-- Modelled from the spec (§4.6 Mesh Builder): the `vectorTree` spatial index
(its Go implementation is not under src); per the spec it supports exact-match
point lookup, embedded as an association list from point to vertex index. -/
abbrev VectorTree : Type := List (Point3D × Nat)

/-- Modelled from the spec: `vectorTree.FindVector` — exact-match lookup of a
point's recorded vertex index. -/
def findVector (t : VectorTree) (p : Point3D) : Option Nat :=
  (List.find? (fun q => q.1 == p) t).map (fun q => q.2)

/-- Modelled from the spec: `vectorTree.AddVector` — record a point's vertex index. -/
def addVector (t : VectorTree) (p : Point3D) (i : Nat) : VectorTree :=
  t ++ [(p, i)]

/-- Embeds `go3mf.MeshBuilder` (core.go): the connectivity flag, the mesh
vertex list under construction, and the spatial index. -/
structure MeshBuilder where
  CalculateConnectivity : Bool
  vertices : List Point3D
  vectorTree : VectorTree

/-- Embeds `MeshBuilder.AddVertex` (core.go lines 671-683): with connectivity
enabled, an exact match in the spatial index returns the existing index with
no append; otherwise the vertex is appended, its index recorded when
connectivity is enabled, and the new index returned. -/
def addVertex (mb : MeshBuilder) (node : Point3D) : MeshBuilder × Nat :=
  match (if mb.CalculateConnectivity then findVector mb.vectorTree node else none) with
  | some index => (mb, index)
  | none =>
    let vs := mb.vertices ++ [node]
    let index := vs.length - 1
    ({ mb with
        vertices := vs,
        vectorTree :=
          if mb.CalculateConnectivity then addVector mb.vectorTree node index
          else mb.vectorTree },
      index)

/-- The shapes of the `target interface{}` argument that `AnyAttr.Get` and
`Extension.Get` distinguish through reflection: a nil interface, a
non-pointer, a nil pointer, a pointer to a non-conforming concrete type, a
pointer to an interface type (with its assignability predicate over concrete
type identities), and a pointer to a conforming concrete type. -/
inductive GTarget where
  | nilTarget
  | nonPointer
  | nilPointer
  | ptrNonConforming
  | ptrIface (accepts : Nat → Bool)
  | ptrImpl (tid : Nat)

/-- Whether a bag element (a possibly-nil interface value carrying a concrete
type identity) is non-nil and assignable to the target's pointee type. -/
def elemMatches (target : GTarget) (v : Option Nat) : Bool :=
  match v with
  | none => false
  | some tid =>
    match target with
    | .ptrIface accepts => accepts tid
    | .ptrImpl tid2 => tid == tid2
    | _ => false

/-- Embeds `AnyAttr.Get` (extension.go lines 47-71): a nil or empty bag
returns false before any target validation; otherwise an invalid target
panics (`Except.error`), and a valid target scans for the first non-nil
assignable element. -/
def anyAttrGet (e : List (Option Nat)) (target : GTarget) : Except String Bool :=
  if e.length = 0 then Except.ok false
  else
    match target with
    | .nilTarget => Except.error "go3mf: target cannot be nil"
    | .nonPointer => Except.error "go3mf: target must be a non-nil pointer"
    | .nilPointer => Except.error "go3mf: target must be a non-nil pointer"
    | .ptrNonConforming =>
        Except.error "go3mf: *target must be interface or implement MarshalerAttr"
    | t => Except.ok (e.any (fun v => elemMatches t v))

/-- Embeds `Extension.Get` (extension.go lines 93-117), structurally identical
to `AnyAttr.Get` with the Marshaler interface in place of MarshalerAttr. -/
def extensionGet (e : List (Option Nat)) (target : GTarget) : Except String Bool :=
  if e.length = 0 then Except.ok false
  else
    match target with
    | .nilTarget => Except.error "go3mf: target cannot be nil"
    | .nonPointer => Except.error "go3mf: target must be a non-nil pointer"
    | .nilPointer => Except.error "go3mf: target must be a non-nil pointer"
    | .ptrNonConforming =>
        Except.error "go3mf: *target must be interface or implement Marshaler"
    | t => Except.ok (e.any (fun v => elemMatches t v))

/-- Resources whose assets use IDs 1, 2 and 4. -/
def rs124 : Resources :=
  ⟨[.unknownAsset 1, .unknownAsset 2, .unknownAsset 4], []⟩

/-- Resources whose assets use IDs 1, 2 and 3. -/
def rs123 : Resources :=
  ⟨[.unknownAsset 1, .unknownAsset 2, .unknownAsset 3], []⟩

/-- Resources whose assets use IDs 1, 3 and 4. -/
def rs134 : Resources :=
  ⟨[.unknownAsset 1, .unknownAsset 3, .unknownAsset 4], []⟩

/-- Empty resources. -/
def rsEmpty : Resources := ⟨[], []⟩

/-- A model with no resources and no child documents. -/
def mEmpty : Model := ⟨"", ⟨[], []⟩, []⟩

/-- A base-materials asset with ID 1 holding two materials. -/
def bm2 : BaseMaterialsR := ⟨1, [⟨"a", ⟨1, 0, 0, 0⟩⟩, ⟨"b", ⟨0, 1, 0, 0⟩⟩]⟩

/-- A model whose root resources hold only the two-material base-materials asset. -/
def mBM : Model := ⟨"", ⟨[.baseMaterials bm2], []⟩, []⟩

/-- A multi-properties asset whose only combination entry's slot index 5
exceeds the referenced two-entry material list. -/
def mpOOB : MultiPropertiesR := ⟨9, [1], [], [⟨[5]⟩]⟩

/-- A multi-properties asset whose only combination entry's slot index 2 is
within the referenced two-entry material list. -/
def mpInBounds : MultiPropertiesR := ⟨9, [1], [], [⟨[2]⟩]⟩

/-- A multi-properties asset with two dangling property-ID references. -/
def mpDangling : MultiPropertiesR := ⟨4, [100, 200], [], [⟨[]⟩]⟩

/-- A multi-properties asset with property-ID list of size two and two blend methods. -/
def mpBlend2 : MultiPropertiesR := ⟨9, [5, 2], [7, 7], [⟨[0, 0]⟩]⟩

/-- A multi-properties asset with property-ID list of size two and one blend method. -/
def mpBlend1 : MultiPropertiesR := ⟨9, [5, 2], [7], [⟨[0, 0]⟩]⟩

/-- A decoder whose hooks do nothing and that recognizes no child element. -/
def nopDecoder : NodeDecoder :=
  .mk (fun st => (st, none)) (fun _ st => (st, none)) (fun _ st => (st, none))
    (fun st => (st, none)) (fun _ => none)

/-- An element name in an unregistered namespace. -/
def fooName : XmlName := ⟨"http://example.com/unregistered", "foo"⟩

/-- The zero XML name the decode loop starts with. -/
def rootName : XmlName := ⟨"", ""⟩

/-- An empty model-file state. -/
def st0 : ModelFileState := ⟨[], []⟩

/-- A fresh mesh builder with connectivity deduplication enabled. -/
def mbDedup : MeshBuilder := ⟨true, [], ([] : List (Point3D × Nat))⟩

/-- A fresh mesh builder with connectivity deduplication disabled. -/
def mbNoDedup : MeshBuilder := ⟨false, [], ([] : List (Point3D × Nat))⟩

/-- The origin point. -/
def p0 : Point3D := ⟨0, 0, 0⟩

/-- Membership in a conditional singleton list. -/
theorem mem_ite_singleton {α : Type} {c : Prop} [Decidable c] {e x : α} :
    (e ∈ if c then [x] else ([] : List α)) ↔ c ∧ e = x := by
  split <;> simp_all

/-- C3: `Register` never fails: it returns `ok` on every input, silently
overwrites an existing namespace entry, and accepts a nil spec — there is no
panic path, contradicting its own doc comment and the claimed fatal-error
contract. -/
theorem register_accepts_duplicate_and_nil :
    (∀ reg ns s, ∃ reg2, Register reg ns s = Except.ok reg2) ∧
    Register [] "ns1" (SpecV.someSpec 1) = Except.ok [("ns1", SpecV.someSpec 1)] ∧
    Register [("ns1", SpecV.someSpec 1)] "ns1" (SpecV.someSpec 2)
      = Except.ok [("ns1", SpecV.someSpec 2)] ∧
    Register [] "ns1" SpecV.nilSpec = Except.ok [("ns1", SpecV.nilSpec)] :=
  ⟨fun reg ns s => ⟨mapAssign reg ns s, rfl⟩, rfl, rfl, rfl⟩

/-- C4: `Extension.encode` returns immediately after the FIRST marshaler that
succeeds (`if err == nil { return err }`), so of two succeeding marshalers
only the first is emitted, while the round-trip contract (spec-modelled
`extensionEncodeSpec`) emits both; moreover the encoder never surfaces a
marshal error. -/
theorem extension_encode_emits_only_first :
    extensionEncode [⟨[1], none⟩, ⟨[2], none⟩] [] = ([1], none) ∧
    extensionEncodeSpec [⟨[1], none⟩, ⟨[2], none⟩] [] = ([1, 2], none) ∧
    (∀ exts acc, (extensionEncode exts acc).2 = none) := by
  refine ⟨by decide, by decide, ?_⟩
  intro exts
  induction exts with
  | nil => intro acc; rfl
  | cons ext rest ih =>
    intro acc
    cases h : ext.err <;> simp [extensionEncode, h, ih]

/-- C10: with an empty (or nil) bag, `AnyAttr.Get` and `Extension.Get` return
false for every target — nil, non-pointer, nil pointer, non-conforming
pointee included — and never reach a panic, because the emptiness test runs
before any target validation. -/
theorem attachment_get_empty_bag (e : List (Option Nat)) (t : GTarget)
    (h : e.length = 0) :
    anyAttrGet e t = Except.ok false ∧ extensionGet e t = Except.ok false := by
  have he : e = [] := List.length_eq_zero.mp h
  subst he
  exact ⟨rfl, rfl⟩

/-- Witness for `attachment_get_empty_bag` at the empty bag and a nil target. -/
theorem attachment_get_empty_bag_witness :
    ([] : List (Option Nat)).length = 0 ∧
    (anyAttrGet [] GTarget.nilTarget = Except.ok false ∧
     extensionGet [] GTarget.nilTarget = Except.ok false) :=
  ⟨rfl, attachment_get_empty_bag [] GTarget.nilTarget rfl⟩

/-- A point recorded in the spatial index is found with its recorded index,
provided it was not already present. -/
theorem findVector_addVector (t : VectorTree) (p : Point3D) (i : Nat)
    (h : findVector t p = none) : findVector (addVector t p i) p = some i := by
  have h2 : List.find? (fun q : Point3D × Nat => q.1 == p) t = none := by
    unfold findVector at h
    cases hf : List.find? (fun q : Point3D × Nat => q.1 == p) t
    · rfl
    · rw [hf] at h
      simp at h
  unfold findVector addVector
  rw [List.find?_append, h2]
  simp

/-- C9: `AddVertex` on a point not yet indexed: with connectivity
deduplication enabled, two calls with the same point append exactly one
vertex and return the same index twice; with deduplication disabled, the two
calls append two vertices and return distinct indices. -/
theorem addVertex_dedup (mb : MeshBuilder) (p : Point3D)
    (hfresh : findVector mb.vectorTree p = none) :
    (mb.CalculateConnectivity = true →
      ((addVertex mb p).1.vertices = mb.vertices ++ [p] ∧
       (addVertex (addVertex mb p).1 p).2 = (addVertex mb p).2 ∧
       (addVertex (addVertex mb p).1 p).1.vertices = mb.vertices ++ [p])) ∧
    (mb.CalculateConnectivity = false →
      ((addVertex mb p).1.vertices = mb.vertices ++ [p] ∧
       (addVertex (addVertex mb p).1 p).1.vertices = (mb.vertices ++ [p]) ++ [p] ∧
       (addVertex (addVertex mb p).1 p).2 ≠ (addVertex mb p).2)) := by
  constructor
  · intro hcc
    have h2 := findVector_addVector mb.vectorTree p mb.vertices.length hfresh
    refine ⟨?_, ?_, ?_⟩ <;> simp [addVertex, hcc, hfresh, h2]
  · intro hcc
    refine ⟨?_, ?_, ?_⟩ <;> simp [addVertex, hcc]

/-- Witness for `addVertex_dedup` at the origin on fresh builders with
deduplication enabled and disabled. -/
theorem addVertex_dedup_witness :
    (findVector mbDedup.vectorTree p0 = none ∧
      (mbDedup.CalculateConnectivity = true →
        ((addVertex mbDedup p0).1.vertices = mbDedup.vertices ++ [p0] ∧
         (addVertex (addVertex mbDedup p0).1 p0).2 = (addVertex mbDedup p0).2 ∧
         (addVertex (addVertex mbDedup p0).1 p0).1.vertices = mbDedup.vertices ++ [p0]))) ∧
    (findVector mbNoDedup.vectorTree p0 = none ∧
      (mbNoDedup.CalculateConnectivity = false →
        ((addVertex mbNoDedup p0).1.vertices = mbNoDedup.vertices ++ [p0] ∧
         (addVertex (addVertex mbNoDedup p0).1 p0).1.vertices
            = (mbNoDedup.vertices ++ [p0]) ++ [p0] ∧
         (addVertex (addVertex mbNoDedup p0).1 p0).2 ≠ (addVertex mbNoDedup p0).2))) :=
  ⟨⟨rfl, (addVertex_dedup mbDedup p0 rfl).1⟩,
   ⟨rfl, (addVertex_dedup mbNoDedup p0 rfl).2⟩⟩

/-- C1: `UnusedID` agrees with the spec's three examples ({1,2,4} ↦ 3,
{1,2,3} ↦ 4, empty ↦ 1), but it does not implement the claimed first-gap
algorithm: its scan loop keeps overwriting `lowest`, so it returns the LAST
index whose sorted value differs from the index. On IDs {1,3,4} the code
returns 3 while the spec's first-gap algorithm returns 2. -/
theorem unusedID_diverges_from_spec :
    unusedID rs124 = 3 ∧ unusedID rs123 = 4 ∧ unusedID rsEmpty = 1 ∧
    unusedID rs134 = 3 ∧ unusedIDSpec rs134 = 2 := by decide

/-- C2: the ID returned by `UnusedID` can collide with an existing ID — on
resources with asset IDs {1,3,4} the code returns 3, which is in use, so a
resource synthesized with that ID (as the STL importer does) collides. -/
theorem unusedID_returns_used_id :
    unusedID rs134 = 3 ∧ idInUse rs134 (unusedID rs134) = true := by decide

/-- One `mpStep` only appends PID-loop diagnostics to the error list. -/
theorem mpStep_errs (m : Model) (path : String) (s : MPState) (j pid : Nat) :
    ∃ u, (mpStep m path s j pid).errs = s.errs ++ u ∧
      ∀ e ∈ u, e = ModelError.materialMulti ∨ e = ModelError.multiRefMulti ∨
        e = ModelError.multiColors ∨ e = ModelError.missingResource := by
  unfold mpStep
  cases h : findAsset m path pid with
  | none =>
    by_cases hf : s.resourceUndefined
    · exact ⟨[], by simp [hf], by simp⟩
    · exact ⟨[ModelError.missingResource], by simp [hf], by simp⟩
  | some a =>
    cases a with
    | baseMaterials pr =>
      refine ⟨if j ≠ 0 then [ModelError.materialMulti] else [], rfl, ?_⟩
      intro e he
      rw [mem_ite_singleton] at he
      simp [he.2]
    | compositeMaterials pr =>
      refine ⟨if j ≠ 0 then [ModelError.materialMulti] else [], rfl, ?_⟩
      intro e he
      rw [mem_ite_singleton] at he
      simp [he.2]
    | multiProperties pr => exact ⟨[ModelError.multiRefMulti], rfl, by simp⟩
    | colorGroup pr =>
      refine ⟨if s.colorCount = 1 then [ModelError.multiColors] else [], rfl, ?_⟩
      intro e he
      rw [mem_ite_singleton] at he
      simp [he.2]
    | unknownAsset id => exact ⟨[], by simp, by simp⟩

/-- The PID loop only appends PID-loop diagnostics to the error list. -/
theorem mpLoop_errs (m : Model) (path : String) :
    ∀ (pids : List Nat) (j : Nat) (s : MPState),
      ∃ t, (mpLoop m path j s pids).errs = s.errs ++ t ∧
        ∀ e ∈ t, e = ModelError.materialMulti ∨ e = ModelError.multiRefMulti ∨
          e = ModelError.multiColors ∨ e = ModelError.missingResource
  | [], j, s => ⟨[], by simp [mpLoop], by simp⟩
  | pid :: pids, j, s => by
    obtain ⟨u, hu, hku⟩ := mpStep_errs m path s j pid
    obtain ⟨t, ht, hkt⟩ := mpLoop_errs m path pids (j + 1) (mpStep m path s j pid)
    refine ⟨u ++ t, ?_, ?_⟩
    · rw [mpLoop, ht, hu, List.append_assoc]
    · intro e he
      rcases List.mem_append.mp he with h | h
      · exact hku e h
      · exact hkt e h

/-- One `mpStep` extends the lengths array by exactly the resolved list length. -/
theorem mpStep_lengths (m : Model) (path : String) (s : MPState) (j pid : Nat) :
    (mpStep m path s j pid).lengths = s.lengths ++ [pidRefLength m path pid] := by
  unfold mpStep pidRefLength
  cases h : findAsset m path pid with
  | none => by_cases hf : s.resourceUndefined <;> simp [hf]
  | some a => cases a <;> rfl

/-- The PID loop computes exactly the `refLengths` of the property-IDs. -/
theorem mpLoop_lengths (m : Model) (path : String) :
    ∀ (pids : List Nat) (j : Nat) (s : MPState),
      (mpLoop m path j s pids).lengths = s.lengths ++ refLengths m path pids
  | [], j, s => by simp [mpLoop, refLengths]
  | pid :: pids, j, s => by
    rw [mpLoop, mpLoop_lengths m path pids (j + 1) (mpStep m path s j pid),
      mpStep_lengths, List.append_assoc]
    rfl

/-- Every combination-loop diagnostic is a wrapped out-of-bounds error. -/
theorem multisErrs_shape (pl : Nat) (lens : List Nat) :
    ∀ (ms : List Multi) (j0 : Nat) (e : ModelError), e ∈ multisErrs pl lens j0 ms →
      ∃ j2, e = ModelError.wrapIndex ModelError.indexOutOfBounds j2
  | [], j0, e => by simp [multisErrs]
  | mu :: ms, j0, e => by
    intro he
    rw [multisErrs] at he
    rcases List.mem_append.mp he with h | h
    · rw [mem_ite_singleton] at h
      exact ⟨j0, h.2⟩
    · exact multisErrs_shape pl lens ms (j0 + 1) e h

/-- Membership of a wrapped out-of-bounds diagnostic in the combination loop:
exactly the flagged entries are reported, wrapped at their position. -/
theorem mem_multisErrs (pl : Nat) (lens : List Nat) :
    ∀ (ms : List Multi) (j0 j : Nat),
      ModelError.wrapIndex ModelError.indexOutOfBounds j ∈ multisErrs pl lens j0 ms ↔
        ∃ i mu, ms[i]? = some mu ∧ j0 + i = j ∧ multiFlagged pl lens mu = true
  | [], j0, j => by simp [multisErrs]
  | mu :: ms, j0, j => by
    rw [multisErrs]
    constructor
    · intro he
      rcases List.mem_append.mp he with h | h
      · rw [mem_ite_singleton] at h
        obtain ⟨hf, heq⟩ := h
        injection heq with h1 h2
        exact ⟨0, mu, by simp, by omega, hf⟩
      · obtain ⟨i, mu2, h1, h2, h3⟩ := (mem_multisErrs pl lens ms (j0 + 1) j).mp h
        exact ⟨i + 1, mu2, by simpa using h1, by omega, h3⟩
    · rintro ⟨i, mu2, h1, h2, h3⟩
      cases i with
      | zero =>
        rw [List.getElem?_cons_zero] at h1
        injection h1 with h1
        subst h1
        apply List.mem_append.mpr
        left
        rw [mem_ite_singleton]
        refine ⟨h3, ?_⟩
        have heq : j0 = j := by omega
        rw [heq]
      | succ i =>
        rw [List.getElem?_cons_succ] at h1
        apply List.mem_append.mpr
        right
        exact (mem_multisErrs pl lens ms (j0 + 1) j).mpr ⟨i, mu2, h1, by omega, h3⟩

/-- The inner slot loop fires exactly when some slot index is out of range. -/
theorem flaggedAux_iff (pl : Nat) (lens : List Nat) :
    ∀ (l : List Nat) (k0 : Nat),
      flaggedAux pl lens k0 l = true ↔
        ∃ i idx, l[i]? = some idx ∧ k0 + i < pl ∧ lens.getD (k0 + i) 0 < idx
  | [], k0 => by simp [flaggedAux]
  | idx :: l, k0 => by
    rw [flaggedAux]
    simp only [Bool.or_eq_true, Bool.and_eq_true, decide_eq_true_eq]
    constructor
    · rintro (⟨h1, h2⟩ | h)
      · exact ⟨0, idx, by simp, by omega, by simpa using h2⟩
      · obtain ⟨i, idx2, h1, h2, h3⟩ := (flaggedAux_iff pl lens l (k0 + 1)).mp h
        refine ⟨i + 1, idx2, by simpa using h1, by omega, ?_⟩
        have : k0 + 1 + i = k0 + (i + 1) := by omega
        rw [← this]
        exact h3
    · rintro ⟨i, idx2, h1, h2, h3⟩
      cases i with
      | zero =>
        rw [List.getElem?_cons_zero] at h1
        injection h1 with h1
        subst h1
        exact Or.inl ⟨by omega, by simpa using h3⟩
      | succ i =>
        rw [List.getElem?_cons_succ] at h1
        right
        apply (flaggedAux_iff pl lens l (k0 + 1)).mpr
        refine ⟨i, idx2, h1, by omega, ?_⟩
        have heq : k0 + 1 + i = k0 + (i + 1) := by omega
        rw [heq]
        exact h3

/-- Characterization of membership in `validateMultiProps`: a diagnostic comes
from one of the four cardinality checks, the PID loop, or the combination loop. -/
theorem mem_validateMultiProps (m : Model) (path : String) (r : MultiPropertiesR)
    (e : ModelError) :
    e ∈ validateMultiProps m path r ↔
      ((r.ID = 0 ∧ e = ModelError.missingID) ∨
       (r.PIDs.length = 0 ∧ e = ModelError.missingField attrPIDs) ∨
       (blendExceeded r = true ∧ e = ModelError.multiBlend) ∨
       (r.Multis.length = 0 ∧ e = ModelError.emptyResourceProps) ∨
       e ∈ (mpLoop m path 0 ⟨0, false, [], []⟩ r.PIDs).errs ∨
       e ∈ multisErrs r.PIDs.length (mpLoop m path 0 ⟨0, false, [], []⟩ r.PIDs).lengths 0
          r.Multis) := by
  unfold validateMultiProps
  simp only [List.mem_append, mem_ite_singleton]
  tauto

/-- C5: the blend-methods diagnostic appears exactly when the asset has more
than N−1 blend methods for N property-ID references (over Go int arithmetic);
in particular PID list {5,2} with 2 blend methods is flagged and with 1 blend
method is not. -/
theorem validateMultiProps_blend_iff :
    (∀ (m : Model) (path : String) (r : MultiPropertiesR),
      ModelError.multiBlend ∈ validateMultiProps m path r ↔
        (r.BlendMethods.length : Int) > (r.PIDs.length : Int) - 1) ∧
    ModelError.multiBlend ∈ validateMultiProps mEmpty "" mpBlend2 ∧
    ModelError.multiBlend ∉ validateMultiProps mEmpty "" mpBlend1 := by
  have key : ∀ (m : Model) (path : String) (r : MultiPropertiesR),
      ModelError.multiBlend ∈ validateMultiProps m path r ↔ blendExceeded r = true := by
    intro m path r
    rw [mem_validateMultiProps]
    constructor
    · rintro (⟨_, h⟩ | ⟨_, h⟩ | ⟨hb, _⟩ | ⟨_, h⟩ | h | h)
      · exact absurd h (by simp)
      · exact absurd h (by simp)
      · exact hb
      · exact absurd h (by simp)
      · obtain ⟨t, ht, hk⟩ := mpLoop_errs m path r.PIDs 0 ⟨0, false, [], []⟩
        rw [ht] at h
        rcases hk _ (by simpa using h) with h | h | h | h <;> simp at h
      · obtain ⟨j2, hj⟩ := multisErrs_shape _ _ _ _ _ h
        simp at hj
    · intro hb
      exact Or.inr (Or.inr (Or.inl ⟨hb, rfl⟩))
  refine ⟨?_, ?_, ?_⟩
  · intro m path r
    rw [key]
    simp [blendExceeded]
  · rw [key]
    decide
  · rw [key]
    decide

/-- C6: in a multi-properties asset whose property-IDs resolve to property
lists, a combination entry at position `j` yields the out-of-bounds
diagnostic wrapped at `j` exactly when one of its slot indices (within the
PID count) exceeds the referenced list's length. -/
theorem validateMultiProps_combination_oob (m : Model) (path : String)
    (r : MultiPropertiesR) (j : Nat) (mu : Multi)
    (hres : ∀ pid ∈ r.PIDs, resolvesToPropList m path pid = true)
    (hj : r.Multis[j]? = some mu) :
    ModelError.wrapIndex ModelError.indexOutOfBounds j ∈ validateMultiProps m path r ↔
      ∃ k idx, mu.PIndices[k]? = some idx ∧ k < r.PIDs.length ∧
        (refLengths m path r.PIDs).getD k 0 < idx := by
  have hlen : (mpLoop m path 0 ⟨0, false, [], []⟩ r.PIDs).lengths
      = refLengths m path r.PIDs := by
    rw [mpLoop_lengths]
    simp
  rw [mem_validateMultiProps, hlen]
  constructor
  · rintro (⟨_, h⟩ | ⟨_, h⟩ | ⟨_, h⟩ | ⟨_, h⟩ | h | h)
    · exact absurd h (by simp)
    · exact absurd h (by simp)
    · exact absurd h (by simp)
    · exact absurd h (by simp)
    · obtain ⟨t, ht, hk⟩ := mpLoop_errs m path r.PIDs 0 ⟨0, false, [], []⟩
      rw [ht] at h
      rcases hk _ (by simpa using h) with h | h | h | h <;> simp at h
    · obtain ⟨i, mu2, h1, h2, h3⟩ := (mem_multisErrs _ _ r.Multis 0 j).mp h
      have hij : i = j := by omega
      subst hij
      rw [hj] at h1
      injection h1 with h1
      subst h1
      rw [multiFlagged] at h3
      obtain ⟨k, idx, hk1, hk2, hk3⟩ := (flaggedAux_iff _ _ mu.PIndices 0).mp h3
      exact ⟨k, idx, hk1, by omega, by simpa using hk3⟩
  · rintro ⟨k, idx, hk1, hk2, hk3⟩
    refine Or.inr (Or.inr (Or.inr (Or.inr (Or.inr ?_))))
    apply (mem_multisErrs _ _ r.Multis 0 j).mpr
    refine ⟨j, mu, hj, by omega, ?_⟩
    rw [multiFlagged]
    apply (flaggedAux_iff _ _ mu.PIndices 0).mpr
    exact ⟨k, idx, hk1, by omega, by simpa using hk3⟩

/-- Witness for `validateMultiProps_combination_oob`: PID list {1} resolving
to a two-material base-materials asset and a combination entry with slot
index 5. -/
theorem validateMultiProps_combination_oob_witness :
    (∀ pid ∈ mpOOB.PIDs, resolvesToPropList mBM "" pid = true) ∧
    mpOOB.Multis[0]? = some ⟨[5]⟩ ∧
    (ModelError.wrapIndex ModelError.indexOutOfBounds 0 ∈ validateMultiProps mBM "" mpOOB ↔
      ∃ k idx, (Multi.mk [5]).PIndices[k]? = some idx ∧ k < mpOOB.PIDs.length ∧
        (refLengths mBM "" mpOOB.PIDs).getD k 0 < idx) :=
  ⟨by decide, by decide,
    validateMultiProps_combination_oob mBM "" mpOOB 0 ⟨[5]⟩ (by decide) (by decide)⟩

/-- C7 counterexample: a multi-properties asset with TWO dangling property-ID
references (100 and 200) produces exactly ONE missing-resource diagnostic —
the validator coalesces repeated dangling references within one asset, so not
every referential problem is reported individually. -/
theorem missing_resource_reported_once :
    findAsset mEmpty "" 100 = none ∧ findAsset mEmpty "" 200 = none ∧
    (validateMultiProps mEmpty "" mpDangling).count ModelError.missingResource = 1 := by
  decide

/-- One `mpStep` leaves the once-only flag monotone and counts at most one
missing-resource diagnostic, exactly when the flag was clear and the PID dangles. -/
theorem mpStep_mr (m : Model) (path : String) (s : MPState) (j pid : Nat) :
    (mpStep m path s j pid).resourceUndefined
        = (s.resourceUndefined || (findAsset m path pid).isNone) ∧
    ((mpStep m path s j pid).errs).count ModelError.missingResource
        = (s.errs).count ModelError.missingResource +
            (if s.resourceUndefined = false ∧ (findAsset m path pid).isNone = true
              then 1 else 0) := by
  unfold mpStep
  cases h : findAsset m path pid with
  | none =>
    by_cases hf : s.resourceUndefined <;>
      simp [hf, List.count_append]
  | some a =>
    cases a <;>
      simp [List.count_append] <;>
      split <;> rfl

/-- The PID loop counts exactly one missing-resource diagnostic when the flag
is clear and some PID dangles, and none otherwise. -/
theorem mpLoop_count_mr (m : Model) (path : String) :
    ∀ (pids : List Nat) (j : Nat) (s : MPState),
      ((mpLoop m path j s pids).errs).count ModelError.missingResource =
        (s.errs).count ModelError.missingResource +
          (if s.resourceUndefined = false ∧
              pids.any (fun pid => (findAsset m path pid).isNone) = true then 1 else 0)
  | [], j, s => by simp [mpLoop]
  | pid :: pids, j, s => by
    rw [mpLoop, mpLoop_count_mr m path pids (j + 1) (mpStep m path s j pid)]
    obtain ⟨hflag, hcount⟩ := mpStep_mr m path s j pid
    rw [hflag, hcount, List.any_cons]
    by_cases h1 : s.resourceUndefined = false <;>
      by_cases h2 : (findAsset m path pid).isNone = true <;>
        simp [h1, h2]

/-- The combination loop never reports a missing-resource diagnostic. -/
theorem multisErrs_count_mr (pl : Nat) (lens : List Nat) :
    ∀ (ms : List Multi) (j0 : Nat),
      (multisErrs pl lens j0 ms).count ModelError.missingResource = 0
  | [], _ => rfl
  | mu :: ms, j0 => by
    rw [multisErrs, List.count_append, multisErrs_count_mr pl lens ms (j0 + 1)]
    split <;> rfl

/-- A conditional singleton of a different diagnostic contributes no count. -/
theorem count_ite_singleton_ne {c : Prop} [Decidable c] {x a : ModelError} (h : x ≠ a) :
    (if c then [x] else ([] : List ModelError)).count a = 0 := by
  rw [List.count_eq_zero]
  intro hmem
  rw [mem_ite_singleton] at hmem
  exact h hmem.2.symm

/-- Every diagnostic of the composite-materials reference check is one of its
four kinds. -/
theorem compositeMatRefErrs_shape (m : Model) (path : String) (r : CompositeMaterialsR)
    (e : ModelError) (he : e ∈ compositeMatRefErrs m path r) :
    e = ModelError.missingField attrMatID ∨ e = ModelError.indexOutOfBounds ∨
      e = ModelError.compositeBase ∨ e = ModelError.missingResource := by
  unfold compositeMatRefErrs at he
  by_cases hm : r.MaterialID = 0
  · rw [if_pos hm] at he
    simp at he
    simp [he]
  · rw [if_neg hm] at he
    cases hf : findAsset m path r.MaterialID with
    | none =>
      rw [hf] at he
      simp at he
      simp [he]
    | some a =>
      rw [hf] at he
      cases a with
      | baseMaterials bm =>
        rw [mem_ite_singleton] at he
        simp [he.2]
      | colorGroup pr => simp at he; simp [he]
      | compositeMaterials pr => simp at he; simp [he]
      | multiProperties pr => simp at he; simp [he]
      | unknownAsset id => simp at he; simp [he]

/-- Characterization of membership in `validateCompositeMat`. -/
theorem mem_validateCompositeMat (m : Model) (path : String) (r : CompositeMaterialsR)
    (e : ModelError) :
    e ∈ validateCompositeMat m path r ↔
      ((r.ID = 0 ∧ e = ModelError.missingID) ∨
       e ∈ compositeMatRefErrs m path r ∨
       (r.Indices.length = 0 ∧ e = ModelError.missingField attrMatIndices) ∨
       (r.Composites.length = 0 ∧ e = ModelError.emptyResourceProps)) := by
  unfold validateCompositeMat
  simp only [List.mem_append, mem_ite_singleton]
  tauto

/-- C7 (amended): the validators accumulate every check's diagnostic into one
list with no early exit — the combination/emptiness checks still report when
earlier checks failed — but repeated problems within one asset are coalesced:
a multi-properties asset records the missing-resource diagnostic exactly once
no matter how many property-IDs dangle. -/
theorem validators_accumulate_with_coalescing :
    (∀ (m : Model) (path : String) (r : MultiPropertiesR),
      (validateMultiProps m path r).count ModelError.missingResource =
        (if r.PIDs.any (fun pid => (findAsset m path pid).isNone) = true then 1 else 0)) ∧
    (∀ (m : Model) (path : String) (r : MultiPropertiesR),
      ModelError.emptyResourceProps ∈ validateMultiProps m path r ↔ r.Multis.length = 0) ∧
    (∀ (m : Model) (path : String) (r : CompositeMaterialsR),
      (ModelError.missingField attrMatIndices ∈ validateCompositeMat m path r ↔
        r.Indices.length = 0) ∧
      (ModelError.emptyResourceProps ∈ validateCompositeMat m path r ↔
        r.Composites.length = 0)) := by
  refine ⟨?_, ?_, ?_⟩
  · intro m path r
    unfold validateMultiProps
    simp only [List.count_append]
    rw [mpLoop_count_mr m path r.PIDs 0 ⟨0, false, [], []⟩, multisErrs_count_mr,
      count_ite_singleton_ne (by decide), count_ite_singleton_ne (by decide),
      count_ite_singleton_ne (by decide), count_ite_singleton_ne (by decide)]
    simp
  · intro m path r
    rw [mem_validateMultiProps]
    constructor
    · rintro (⟨_, h⟩ | ⟨_, h⟩ | ⟨_, h⟩ | ⟨hm, _⟩ | h | h)
      · exact absurd h (by simp)
      · exact absurd h (by simp)
      · exact absurd h (by simp)
      · exact hm
      · obtain ⟨t, ht, hk⟩ := mpLoop_errs m path r.PIDs 0 ⟨0, false, [], []⟩
        rw [ht] at h
        rcases hk _ (by simpa using h) with h | h | h | h <;> simp at h
      · obtain ⟨j2, hj⟩ := multisErrs_shape _ _ _ _ _ h
        simp at hj
    · intro hm
      exact Or.inr (Or.inr (Or.inr (Or.inl ⟨hm, rfl⟩)))
  · intro m path r
    constructor
    · rw [mem_validateCompositeMat]
      constructor
      · rintro (⟨_, h⟩ | h | ⟨hi, _⟩ | ⟨_, h⟩)
        · exact absurd h (by decide)
        · rcases compositeMatRefErrs_shape m path r _ h with h | h | h | h <;>
            exact absurd h (by decide)
        · exact hi
        · exact absurd h (by decide)
      · intro hi
        exact Or.inr (Or.inr (Or.inl ⟨hi, rfl⟩))
    · rw [mem_validateCompositeMat]
      constructor
      · rintro (⟨_, h⟩ | h | ⟨_, h⟩ | ⟨hc, _⟩)
        · exact absurd h (by decide)
        · rcases compositeMatRefErrs_shape m path r _ h with h | h | h | h <;>
            exact absurd h (by decide)
        · exact absurd h (by decide)
        · exact hc
      · intro hc
        exact Or.inr (Or.inr (Or.inr ⟨hc, rfl⟩))

/-- Balanced content is consumed entirely by a skip, at any depth. -/
theorem skipTokens_balanced {b : List XmlToken} (hb : BalancedTokens b) :
    ∀ (rest : List XmlToken) (d : Nat), skipTokens (b ++ rest) d = skipTokens rest d := by
  induction hb with
  | nil => intro rest d; rfl
  | text s hl ih =>
    intro rest d
    rw [List.cons_append, skipTokens]
    exact ih rest d
  | elem n attrs n2 hinner hl ihinner ihl =>
    intro rest d
    rw [List.cons_append, skipTokens, List.append_assoc, List.cons_append,
      ihinner (XmlToken.endTag n2 :: (_ ++ rest)) (d + 1), skipTokens]
    simp only [Nat.succ_ne_zero, if_false, Nat.add_sub_cancel]
    exact ihl rest d

/-- C8: when the top-of-stack decoder returns no child decoder for a start
tag, the decode loop skips that element and its whole (balanced) subtree and
continues: the decode of the stream containing the unknown element produces
exactly the same final state — same resources, same warnings, same
termination — as the decode of the stream without it, so unknown-namespace
content never aborts decoding and contributes zero diagnostics. -/
theorem decode_skips_unknown_element (name : XmlName) (attrs : List (XmlName × String))
    (inner rest : List XmlToken) (stack : List (NodeDecoder × XmlName))
    (cur : NodeDecoder) (curName : XmlName) (st : ModelFileState)
    (hchild : cur.child name = none) (hbal : BalancedTokens inner) :
    decodeLoop (XmlToken.start name attrs :: (inner ++ XmlToken.endTag name :: rest))
        stack cur curName st
      = decodeLoop rest stack cur curName st := by
  simp only [decodeLoop, hchild]
  rw [skipTokens_balanced hbal (XmlToken.endTag name :: rest) 0]
  simp [skipTokens]

/-- Witness for `decode_skips_unknown_element`: an unregistered-namespace
element with one text child, under a decoder that recognizes no children. -/
theorem decode_skips_unknown_element_witness :
    nopDecoder.child fooName = none ∧
    BalancedTokens [XmlToken.charData "x"] ∧
    decodeLoop (XmlToken.start fooName [] ::
        ([XmlToken.charData "x"] ++ XmlToken.endTag fooName :: []))
        [] nopDecoder rootName st0
      = decodeLoop [] [] nopDecoder rootName st0 :=
  ⟨rfl, BalancedTokens.text "x" BalancedTokens.nil,
    decode_skips_unknown_element fooName [] [XmlToken.charData "x"] [] [] nopDecoder
      rootName st0 rfl (BalancedTokens.text "x" BalancedTokens.nil)⟩

end Go3MF
